import Mathlib

/-!
Verification development for the fox-kit operator.

The Rust sources embedded here:
- `fox-operator/src/main.rs` (`determine_action`, `reconcile`, `on_error`, `Error`)
- `fox-operator/src/finalizer.rs` (`add`, `delete` merge patches)
- `fox-operator/src/fox_service/deployment.rs` (`build_deployment`)
- `fox-operator/src/fox_service/service.rs` (`build_service`)

The crate `fox-k8s-crds`'s `fox_service` module (the `FoxService` /
`FoxServiceSpec` data shapes) and `fox-operator/src/fox_service/mod.rs`
(the `deploy` / `delete` wrappers) are not among the given sources; where
needed they are modelled from the spec, marked `Modelled from the spec:`.

Machine integers (`i32`) carry no arithmetic in this code, so they are
embedded as `Int`. Rust `BTreeMap` fields are embedded as ordered
association lists, matching the iteration order the translators rely on.
-/

namespace FoxKit

/-- Modelled from the spec: `IngressPort` from the missing
`fox-k8s-crds` `fox_service` module — `{ port: int32 }`. -/
structure IngressPort where
  port : Int
deriving DecidableEq, Repr

/-- Modelled from the spec: `ContainerSpec` from the missing
`fox-k8s-crds` `fox_service` module — name, image, optional args,
optional ordered env mapping, optional ordered (hostPort, containerPort)
mapping. Field types are confirmed by their uses in
`deployment.rs`. -/
structure ContainerSpec where
  name : String
  image : String
  args : Option (List String)
  env : Option (List (String × String))
  ports : Option (List (Int × Int))
deriving DecidableEq, Repr

/-- Modelled from the spec: `FoxServiceSpec` from the missing
`fox-k8s-crds` `fox_service` module. The `name` field is confirmed by
its uses (`fs.name`) in `deployment.rs` and `service.rs`; `replicas` by
`fs.replicas` in `main.rs` and `deployment.rs`. -/
structure FoxServiceSpec where
  name : String
  replicas : Int
  containers : List ContainerSpec
  http_ingress : Option (List IngressPort)
deriving DecidableEq, Repr

/-- The slice of `kube::api::ObjectMeta` this program reads or writes:
name, namespace, labels, annotations, owner references, finalizers and
the deletion timestamp. All other fields are never touched and are
omitted; the ones kept default to `none` exactly as
`ObjectMeta::default()` does. Timestamps are opaque strings here. -/
structure ObjectMeta where
  name : Option String := none
  namespace' : Option String := none
  labels : Option (List (String × String)) := none
  annotations : Option (List (String × String)) := none
  owner_references : Option (List String) := none
  finalizers : Option (List String) := none
  deletion_timestamp : Option String := none
deriving DecidableEq, Repr

/-- The `FoxService` custom resource: metadata plus spec, as delivered
to `reconcile`. -/
structure FoxService where
  metadata : ObjectMeta
  spec : FoxServiceSpec
deriving DecidableEq, Repr

/-- `k8s_openapi::api::core::v1::EnvVar` (fields used by the code). -/
structure EnvVar where
  name : String
  value : Option String := none
deriving DecidableEq, Repr

/-- `k8s_openapi::api::core::v1::ContainerPort` (fields used). -/
structure ContainerPort where
  container_port : Int
  host_port : Option Int := none
deriving DecidableEq, Repr

/-- `k8s_openapi::api::core::v1::Container` (fields used). -/
structure Container where
  name : String
  image : Option String := none
  image_pull_policy : Option String := none
  args : Option (List String) := none
  env : Option (List EnvVar) := none
  ports : Option (List ContainerPort) := none
deriving DecidableEq, Repr

/-- `k8s_openapi::api::core::v1::PodSpec` (fields used). -/
structure PodSpec where
  containers : List Container
deriving DecidableEq, Repr

/-- `k8s_openapi::api::core::v1::PodTemplateSpec` (fields used). -/
structure PodTemplateSpec where
  metadata : Option ObjectMeta := none
  spec : Option PodSpec := none
deriving DecidableEq, Repr

/-- `k8s_openapi::api::apps::v1::DeploymentSpec` (fields used). -/
structure DeploymentSpec where
  replicas : Option Int := none
  template : PodTemplateSpec
deriving DecidableEq, Repr

/-- `k8s_openapi::api::apps::v1::Deployment` (fields used). -/
structure Deployment where
  metadata : ObjectMeta := {}
  spec : Option DeploymentSpec := none
deriving DecidableEq, Repr

/-- `IntOrString` from `k8s_openapi`. -/
inductive IntOrString where
  | int (i : Int)
  | str (s : String)
deriving DecidableEq, Repr

/-- `k8s_openapi::api::core::v1::ServicePort` (fields used). -/
structure ServicePort where
  port : Int
  protocol : Option String := none
  target_port : Option IntOrString := none
deriving DecidableEq, Repr

/-- `k8s_openapi::api::core::v1::ServiceSpec` (fields used). -/
structure ServiceSpec where
  ports : Option (List ServicePort) := none
  selector : Option (List (String × String)) := none
deriving DecidableEq, Repr

/-- `k8s_openapi::api::core::v1::Service` (fields used). -/
structure Service where
  metadata : ObjectMeta := {}
  spec : Option ServiceSpec := none
deriving DecidableEq, Repr

/-- `build_deployment` from `fox-operator/src/fox_service/deployment.rs`:
one `Container` per `ContainerSpec`, faithful to the source including
the `"ALways"` pull-policy literal. -/
def build_deployment (fs : FoxServiceSpec) (namespace' : String) : Deployment :=
  let containers := fs.containers.map fun container =>
    let ports := container.ports.map fun ports =>
      ports.map fun hc =>
        { container_port := hc.2, host_port := some hc.1 : ContainerPort }
    let env := container.env.map fun env =>
      env.map fun kv =>
        { name := kv.1, value := some kv.2 : EnvVar }
    { name := container.name
      image := some container.image
      image_pull_policy := some "ALways"
      args := container.args
      env := env
      ports := ports : Container }
  { metadata :=
      { name := some fs.name
        namespace' := some namespace' }
    spec := some
      { replicas := some fs.replicas
        template :=
          { spec := some { containers := containers }
            metadata := some {} } } }

/-- `build_service` from `fox-operator/src/fox_service/service.rs`. -/
def build_service (fs : FoxServiceSpec) (namespace' : String) : Service :=
  let ports := fs.http_ingress.map fun ingress =>
    ingress.map fun ing =>
      { port := ing.port
        protocol := none
        target_port := some (IntOrString.int ing.port) : ServicePort }
  { metadata :=
      { annotations := none
        labels := none
        name := some fs.name
        namespace' := some namespace'
        owner_references := none }
    spec := some
      { ports := ports
        selector := none } }

/-- Action to be taken upon a `FoxService` resource during reconciliation
(`enum Action` in `main.rs`). -/
inductive Action where
  | Create
  | Delete
  | NoOp
deriving DecidableEq, Repr

/-- `determine_action` from `main.rs`: `Delete` when a deletion timestamp
is present, else `Create` when the `finalizers` field is `None`, else
`NoOp`. -/
def determine_action (fox_svc : FoxService) : Action :=
  if fox_svc.metadata.deletion_timestamp.isSome then
    Action.Delete
  else if fox_svc.metadata.finalizers.isNone then
    Action.Create
  else
    Action.NoOp

/-- The well-known finalizer sentinel token from `finalizer.rs`. -/
def sentinel : String := "foxservices.cbopt.com"

/-- A JSON merge patch touching only `metadata.finalizers`, the only
patch shape this program ever sends: either `"finalizers": [...]` or
`"finalizers": null`. -/
inductive FinalizerPatch where
  | setFinalizers (fins : List String)
  | clearFinalizers
deriving DecidableEq, Repr

/-- The patch body built by `finalizer::add` in `finalizer.rs`:
`{"metadata": {"finalizers": ["foxservices.cbopt.com"]}}`. -/
def finalizer_add_patch : FinalizerPatch :=
  FinalizerPatch.setFinalizers [sentinel]

/-- The patch body built by `finalizer::delete` in `finalizer.rs`:
`{"metadata": {"finalizers": null}}`. -/
def finalizer_delete_patch : FinalizerPatch :=
  FinalizerPatch.clearFinalizers

/-- JSON merge-patch semantics (RFC 7386) restricted to the
`metadata.finalizers` field: an array value replaces the field whatever
it held before, `null` removes the field. -/
def applyMergePatch : FinalizerPatch → Option (List String) → Option (List String)
  | FinalizerPatch.setFinalizers fins, _ => some fins
  | FinalizerPatch.clearFinalizers, _ => none

/-- One control-plane (Cluster API) call issued during a reconciliation
attempt. `patchFoxService` covers both finalizer operations;
`deleteDeployment` / `deleteService` carry the target's name and
namespace as in `delete_deployment` / `delete_service`. -/
inductive Call where
  | patchFoxService (name ns : String) (patch : FinalizerPatch)
  | createDeployment (d : Deployment)
  | createService (s : Service)
  | deleteDeployment (name ns : String)
  | deleteService (name ns : String)
deriving DecidableEq, Repr

/-- The causes a `kube::Error` distinguishes at the transport level; the
reconciler treats them all uniformly. -/
inductive KubeErrorKind where
  | notFound
  | conflict
  | forbidden
  | transport
deriving DecidableEq, Repr

/-- `enum Error` from `main.rs`: `KubeError` wraps any control-plane
failure (the spec's ControlPlaneError), `UserInputError` a bad resource
(the spec's InputError). -/
inductive Error where
  | KubeError (source : KubeErrorKind)
  | UserInputError (msg : String)
deriving DecidableEq, Repr

/-- `kube_runtime::controller::ReconcilerAction`; `requeue_after` is a
duration in seconds. -/
structure ReconcilerAction where
  requeue_after : Option Nat
deriving DecidableEq, Repr

/-- The error message of `main.rs` for a resource without a namespace.
The apostrophe is spliced in by code point to keep the literal plain. -/
def namespaceErrMsg : String :=
  "Expected FoxService resource to be namespaced. Can" ++
    String.singleton (Char.ofNat 39) ++ "t deploy to an unknown namespace."

/-- `ResourceExt::name()` as used by `main.rs`: the resource's metadata
name (total here, defaulting to the empty string). -/
def resName (fox_svc : FoxService) : String :=
  fox_svc.metadata.name.getD ""

/-- An environment assigning to each control-plane call its outcome for
this attempt: `none` is success, `some e` the `kube::Error` cause. -/
def Env : Type := Call → Option KubeErrorKind

/-- `reconcile` from `main.rs`, embedded as a function from the call
environment and the resource snapshot to the ordered trace of
control-plane calls actually issued and the attempt's result. Each
step's success gates the next, as the source's `?` operators do.

The bodies of `fox_service::deploy` and `fox_service::delete`
(`fox_service/mod.rs` is not among the given sources) are modelled from
the spec: the Create path, after the finalizer patch, issues the
workload create for `build_deployment` and the exposure create for
`build_service`; the Delete path issues only the workload delete — the
spec states the exposure descriptor's delete is not invoked on this
path. -/
def reconcile (env : Env) (fox_svc : FoxService) :
    List Call × Except Error ReconcilerAction :=
  match fox_svc.metadata.namespace' with
  | none =>
    ([], Except.error (Error.UserInputError namespaceErrMsg))
  | some ns =>
    match determine_action fox_svc with
    | Action.Create =>
      let name := resName fox_svc
      let c₁ := Call.patchFoxService name ns finalizer_add_patch
      match env c₁ with
      | some e => ([c₁], Except.error (Error.KubeError e))
      | none =>
        let c₂ := Call.createDeployment (build_deployment fox_svc.spec ns)
        match env c₂ with
        | some e => ([c₁, c₂], Except.error (Error.KubeError e))
        | none =>
          let c₃ := Call.createService (build_service fox_svc.spec ns)
          match env c₃ with
          | some e => ([c₁, c₂, c₃], Except.error (Error.KubeError e))
          | none => ([c₁, c₂, c₃], Except.ok { requeue_after := some 10 })
    | Action.Delete =>
      let c₁ := Call.deleteDeployment (resName fox_svc) ns
      match env c₁ with
      | some e => ([c₁], Except.error (Error.KubeError e))
      | none =>
        let c₂ := Call.patchFoxService (resName fox_svc) ns finalizer_delete_patch
        match env c₂ with
        | some e => ([c₁, c₂], Except.error (Error.KubeError e))
        | none => ([c₁, c₂], Except.ok { requeue_after := none })
    | Action.NoOp =>
      ([], Except.ok { requeue_after := some 10 })

/-- `on_error` from `main.rs`: every error requeues after 5 seconds. -/
def on_error (error : Error) : ReconcilerAction :=
  { requeue_after := some 5 }

/-- The containers of the pod template inside a deployment (empty when
any of the optional layers is absent). -/
def Deployment.podContainers (d : Deployment) : List Container :=
  match d.spec with
  | none => []
  | some ds =>
    match ds.template.spec with
    | none => []
    | some ps => ps.containers

/-- The port list of a service descriptor (empty when absent). -/
def Service.portList (s : Service) : List ServicePort :=
  match s.spec with
  | none => []
  | some ss => ss.ports.getD []

/-- The finalizer token set of a resource, reading an absent field as
the empty set (the spec's data model has no absent/empty distinction). -/
def finalizerTokens (fox_svc : FoxService) : List String :=
  fox_svc.metadata.finalizers.getD []

/-- Pointwise relation between two optional lists: both absent, or both
present, of equal length and related entry by entry — the shape of the
translators' 1:1, no-loss, no-duplication guarantees. -/
def OptForall₂ {α β : Type} (r : α → β → Prop) :
    Option (List α) → Option (List β) → Prop
  | none, none => True
  | some xs, some ys => List.Forall₂ r xs ys
  | _, _ => False

/-- The spec's Scenario A container: name "web", image "echo:latest". -/
def exampleContainer : ContainerSpec :=
  { name := "web", image := "echo:latest", args := none, env := none, ports := none }

/-- The spec's Scenario A spec: 3 replicas of the one container. -/
def exampleSpec : FoxServiceSpec :=
  { name := "web", replicas := 3, containers := [exampleContainer], http_ingress := none }

/-- A freshly created resource: no finalizer field, no deletion marker. -/
def resourceFresh : FoxService :=
  { metadata := { name := some "web", namespace' := some "default" }
    spec := exampleSpec }

/-- A resource whose finalizer field is present but holds the empty
list: its finalizer token set is empty, yet the field is not `None`. -/
def resourceEmptyFinalizers : FoxService :=
  { metadata :=
      { name := some "web", namespace' := some "default", finalizers := some [] }
    spec := exampleSpec }

/-- A resource carrying the sentinel finalizer, no deletion marker. -/
def resourceFinalized : FoxService :=
  { metadata :=
      { name := some "web", namespace' := some "default"
        finalizers := some [sentinel] }
    spec := exampleSpec }

/-- The finalized resource after being marked for deletion. -/
def resourceDeleting : FoxService :=
  { metadata :=
      { name := some "web", namespace' := some "default"
        finalizers := some [sentinel]
        deletion_timestamp := some "2021-01-01T00:00:00Z" }
    spec := exampleSpec }

/-- A resource with no namespace, already marked for deletion. -/
def resourceNoNamespace : FoxService :=
  { metadata :=
      { name := some "web"
        finalizers := some [sentinel]
        deletion_timestamp := some "2021-01-01T00:00:00Z" }
    spec := exampleSpec }

/-- Environment where every control-plane call succeeds. -/
def envAllOk : Env := fun _ => none

/-- Environment where every deployment delete fails with not-found and
everything else succeeds. -/
def envDeleteFails : Env := fun c =>
  match c with
  | Call.deleteDeployment _ _ => some KubeErrorKind.notFound
  | _ => none

theorem forall₂_map_self {α β : Type} (r : α → β → Prop) (f : α → β) (l : List α)
    (h : ∀ x ∈ l, r x (f x)) : List.Forall₂ r l (l.map f) :=
  List.forall₂_map_right_iff.mpr (List.forall₂_same.mpr h)

/-- C3: workload translation copies `replicas` verbatim into the
deployment spec, and relates the input container specs 1:1 (same length,
entry by entry, so no loss and no duplication) to the output container
descriptors, each preserving name, image and args, each env entry
becoming one (name, value) pair and each (hostPort, containerPort)
entry one container port. -/
theorem build_deployment_translation (fs : FoxServiceSpec) (ns : String) :
    (build_deployment fs ns).spec.map DeploymentSpec.replicas = some (some fs.replicas)
    ∧ List.Forall₂
        (fun (cs : ContainerSpec) (cd : Container) =>
          cd.name = cs.name ∧ cd.image = some cs.image ∧ cd.args = cs.args
          ∧ OptForall₂ (fun kv ev => ev.name = kv.1 ∧ ev.value = some kv.2)
              cs.env cd.env
          ∧ OptForall₂ (fun hc cp => cp.host_port = some hc.1 ∧ cp.container_port = hc.2)
              cs.ports cd.ports)
        fs.containers (build_deployment fs ns).podContainers := by
  refine ⟨rfl, ?_⟩
  simp only [build_deployment, Deployment.podContainers]
  refine forall₂_map_self _ _ _ fun cs _ => ⟨rfl, rfl, rfl, ?_, ?_⟩
  · cases h : cs.env with
    | none => simp only [Option.map_none']; trivial
    | some l =>
      simp only [Option.map_some', OptForall₂]
      exact forall₂_map_self _ _ _ fun kv _ => ⟨rfl, rfl⟩
  · cases h : cs.ports with
    | none => simp only [Option.map_none']; trivial
    | some l =>
      simp only [Option.map_some', OptForall₂]
      exact forall₂_map_self _ _ _ fun hc _ => ⟨rfl, rfl⟩

/-- C4: exposure translation yields no ports when `httpIngress` is
absent, and otherwise one port entry per ingress entry (1:1, in order)
with the port copied and `targetPort` equal to that same port. -/
theorem build_service_ports (fs : FoxServiceSpec) (ns : String) :
    match fs.http_ingress with
    | none => (build_service fs ns).portList = []
    | some ingress =>
        List.Forall₂
          (fun (ip : IngressPort) (sp : ServicePort) =>
            sp.port = ip.port ∧ sp.target_port = some (IntOrString.int ip.port))
          ingress (build_service fs ns).portList := by
  cases h : fs.http_ingress with
  | none => simp [build_service, Service.portList, h]
  | some ingress =>
    simp only [build_service, Service.portList, h, Option.map_some', Option.getD_some]
    exact forall₂_map_self _ _ _ fun ip _ => ⟨rfl, rfl⟩

/-- C5 (code bug evidence): evaluated on the spec's Scenario A input,
the single container descriptor's image pull policy is the misspelled
literal "ALways", which differs from the canonical "Always" the spec
requires. -/
theorem image_pull_policy_misspelled :
    ((build_deployment exampleSpec "default").podContainers.map
        Container.image_pull_policy) = [some "ALways"]
    ∧ (some "ALways" : Option String) ≠ some "Always" := by
  exact ⟨rfl, by decide⟩

/-- C6: the `add` merge patch replaces the finalizer field with exactly
the singleton sentinel set, whatever the field held before, and
reapplying it yields that same singleton — never a duplicated token. -/
theorem finalizer_add_idempotent (prior : Option (List String)) :
    applyMergePatch finalizer_add_patch prior = some [sentinel]
    ∧ applyMergePatch finalizer_add_patch (applyMergePatch finalizer_add_patch prior)
        = applyMergePatch finalizer_add_patch prior :=
  ⟨rfl, rfl⟩

/-- C10: both translators take the descriptor's metadata name from the
`name` field inside the spec and its namespace from the namespace
argument; the resource's own identity name is not an input of either
builder, so it cannot reach the descriptors. -/
theorem descriptors_named_from_spec (fs : FoxServiceSpec) (ns : String) :
    (build_deployment fs ns).metadata.name = some fs.name
    ∧ (build_deployment fs ns).metadata.namespace' = some ns
    ∧ (build_service fs ns).metadata.name = some fs.name
    ∧ (build_service fs ns).metadata.namespace' = some ns :=
  ⟨rfl, rfl, rfl, rfl⟩

/-- C1 (counterexample): a resource with no deletion marker whose
finalizer field is present but holds the empty list has an empty
finalizer token set, yet `determine_action` classifies it as `NoOp`,
not `Create` as the claim's table demands — the code keys on the
field's absence, not on the set's emptiness. -/
theorem determine_action_empty_set_cex :
    resourceEmptyFinalizers.metadata.deletion_timestamp = none
    ∧ finalizerTokens resourceEmptyFinalizers = []
    ∧ determine_action resourceEmptyFinalizers = Action.NoOp
    ∧ determine_action resourceEmptyFinalizers ≠ Action.Create := by
  refine ⟨rfl, rfl, rfl, by decide⟩

/-- C1 (amended): the decider follows the table keyed on field
presence — deletion timestamp present gives Delete regardless of the
finalizers; deletion timestamp absent with the finalizer field unset
gives Create; deletion timestamp absent with the finalizer field set
(even to an empty list) gives NoOp. -/
theorem determine_action_table (s : FoxService) :
    (s.metadata.deletion_timestamp.isSome → determine_action s = Action.Delete)
    ∧ (s.metadata.deletion_timestamp = none → s.metadata.finalizers = none →
        determine_action s = Action.Create)
    ∧ (s.metadata.deletion_timestamp = none → s.metadata.finalizers.isSome →
        determine_action s = Action.NoOp) := by
  rcases s with ⟨⟨n, ns, l, a, o, fins, dt⟩, sp⟩
  cases dt <;> cases fins <;> simp [determine_action]

/-- Witness for the amended C1 at the three concrete lifecycle states. -/
theorem determine_action_table_witness :
    determine_action resourceDeleting = Action.Delete
    ∧ determine_action resourceFresh = Action.Create
    ∧ determine_action resourceFinalized = Action.NoOp :=
  ⟨(determine_action_table resourceDeleting).1 (by decide),
   (determine_action_table resourceFresh).2.1 rfl rfl,
   (determine_action_table resourceFinalized).2.2 rfl (by decide)⟩

/-- C7: a resource without a namespace makes `reconcile` fail with the
`UserInputError` (the spec's InputError) and an empty call trace — no
control-plane call is issued — for every environment and every
lifecycle state, deletion-marked resources included. -/
theorem missing_namespace_aborts (env : Env) (s : FoxService)
    (h : s.metadata.namespace' = none) :
    reconcile env s = ([], Except.error (Error.UserInputError namespaceErrMsg)) := by
  simp only [reconcile, h]

/-- Witness for C7 on a deletion-marked resource with no namespace. -/
theorem missing_namespace_aborts_witness :
    reconcile envAllOk resourceNoNamespace
      = ([], Except.error (Error.UserInputError namespaceErrMsg))
    ∧ resourceNoNamespace.metadata.deletion_timestamp.isSome :=
  ⟨missing_namespace_aborts envAllOk resourceNoNamespace rfl, by decide⟩

/-- C2: on the Delete path, when the workload delete call fails, the
attempt ends with that control-plane error (`Error.KubeError`, the
spec's ControlPlaneError) having issued only the failed delete; in
particular no finalizer patch — so no finalizer clear — is ever issued
in the attempt. -/
theorem delete_path_failure_keeps_finalizer (env : Env) (s : FoxService)
    (ns : String) (e : KubeErrorKind)
    (hns : s.metadata.namespace' = some ns)
    (hdel : s.metadata.deletion_timestamp.isSome)
    (henv : env (Call.deleteDeployment (resName s) ns) = some e) :
    reconcile env s
      = ([Call.deleteDeployment (resName s) ns], Except.error (Error.KubeError e))
    ∧ ∀ n m p, Call.patchFoxService n m p ∉ (reconcile env s).1 := by
  have hact : determine_action s = Action.Delete := by
    simp [determine_action, hdel]
  have hr : reconcile env s
      = ([Call.deleteDeployment (resName s) ns], Except.error (Error.KubeError e)) := by
    simp only [reconcile, hns, hact, henv]
  refine ⟨hr, fun n m p hmem => ?_⟩
  rw [hr] at hmem
  simp at hmem

/-- Witness for C2: Scenario D — the deleting resource against the
environment whose deployment delete returns not-found. -/
theorem delete_path_failure_keeps_finalizer_witness :
    reconcile envDeleteFails resourceDeleting
      = ([Call.deleteDeployment "web" "default"],
         Except.error (Error.KubeError KubeErrorKind.notFound))
    ∧ ∀ n m p, Call.patchFoxService n m p ∉ (reconcile envDeleteFails resourceDeleting).1 :=
  delete_path_failure_keeps_finalizer envDeleteFails resourceDeleting "default"
    KubeErrorKind.notFound rfl (by decide) rfl

/-- C8: on the Delete path with both calls succeeding, the attempt
issues exactly two control-plane calls in order — the workload delete,
then the finalizer-clearing patch — returns requeue-after none, and at
no point issues a delete for the exposure (Service) object. -/
theorem delete_path_calls (env : Env) (s : FoxService) (ns : String)
    (hns : s.metadata.namespace' = some ns)
    (hdel : s.metadata.deletion_timestamp.isSome)
    (h₁ : env (Call.deleteDeployment (resName s) ns) = none)
    (h₂ : env (Call.patchFoxService (resName s) ns finalizer_delete_patch) = none) :
    reconcile env s
      = ([Call.deleteDeployment (resName s) ns,
          Call.patchFoxService (resName s) ns finalizer_delete_patch],
         Except.ok { requeue_after := none })
    ∧ ∀ n m, Call.deleteService n m ∉ (reconcile env s).1 := by
  have hact : determine_action s = Action.Delete := by
    simp [determine_action, hdel]
  have hr : reconcile env s
      = ([Call.deleteDeployment (resName s) ns,
          Call.patchFoxService (resName s) ns finalizer_delete_patch],
         Except.ok { requeue_after := none }) := by
    simp only [reconcile, hns, hact, h₁, h₂]
  refine ⟨hr, fun n m hmem => ?_⟩
  rw [hr] at hmem
  simp at hmem

/-- Witness for C8: Scenario C — the deleting resource against the
all-success environment. -/
theorem delete_path_calls_witness :
    reconcile envAllOk resourceDeleting
      = ([Call.deleteDeployment "web" "default",
          Call.patchFoxService "web" "default" finalizer_delete_patch],
         Except.ok { requeue_after := none })
    ∧ ∀ n m, Call.deleteService n m ∉ (reconcile envAllOk resourceDeleting).1 :=
  delete_path_calls envAllOk resourceDeleting "default" rfl (by decide) rfl rfl

/-- C9: a successful reconciliation on any non-Delete path (Create or
NoOp) returns requeue-after = 10 seconds, and `on_error` returns a
fixed requeue-after = 5 seconds for every error. -/
theorem requeue_intervals :
    (∀ (env : Env) (s : FoxService) (a : ReconcilerAction),
        (determine_action s = Action.Create ∨ determine_action s = Action.NoOp) →
        (reconcile env s).2 = Except.ok a → a.requeue_after = some 10)
    ∧ ∀ e : Error, on_error e = { requeue_after := some 5 } := by
  refine ⟨fun env s a hact hok => ?_, fun e => rfl⟩
  cases hns : s.metadata.namespace' with
  | none =>
    rw [missing_namespace_aborts env s hns] at hok
    exact absurd hok (by simp)
  | some ns =>
    simp only [reconcile, hns] at hok
    rcases hact with h | h <;> rw [h] at hok
    · cases h₁ : env (Call.patchFoxService (resName s) ns finalizer_add_patch) with
      | some e => rw [h₁] at hok; simp at hok
      | none =>
        rw [h₁] at hok
        cases h₂ : env (Call.createDeployment (build_deployment s.spec ns)) with
        | some e => rw [h₂] at hok; simp at hok
        | none =>
          rw [h₂] at hok
          cases h₃ : env (Call.createService (build_service s.spec ns)) with
          | some e => rw [h₃] at hok; simp at hok
          | none =>
            rw [h₃] at hok
            simp only [Except.ok.injEq] at hok
            rw [← hok]
    · simp only [Except.ok.injEq] at hok
      rw [← hok]

/-- Witness for C9 at the NoOp resource under the all-success
environment, and at a concrete error. -/
theorem requeue_intervals_witness :
    ({ requeue_after := some 10 } : ReconcilerAction).requeue_after = some 10
    ∧ on_error (Error.KubeError KubeErrorKind.notFound) = { requeue_after := some 5 } :=
  ⟨requeue_intervals.1 envAllOk resourceFinalized { requeue_after := some 10 }
      (Or.inr (by decide)) rfl,
   requeue_intervals.2 (Error.KubeError KubeErrorKind.notFound)⟩

end FoxKit
